import Mathlib

/-!
Shallow embedding of the pm_universe fetch pipeline of the oddscraper
repository (src/pm_universe/utils.py, clob.py, gamma.py, runner.py),
together with theorems settling the specified behavior of price batching,
catalog pagination, extraction accounting and run orchestration.

Modeling conventions.
- HTTP traffic is injected as oracle functions: for the price client an
  oracle gives the outcome of every attempt of every batch, and a list of
  batch indices gives the completion order of the worker pool (the pool
  merges batches as they complete, in no fixed order).  For the catalog
  client an oracle gives the outcome of every attempt of every page request.
- The wall clock is abstracted: callers inject the timestamp strings that
  the source reads from the clock.  Sleeping and rate limiting only pace
  requests and are dropped from the functional model.
- Python Decimal values are modeled by the type PyDecimal: exact rationals
  plus the special values NaN and signed infinity, with quiet arithmetic.
  The 28-digit context precision of Python is not modeled (price strings in
  this pipeline are far shorter), signaling NaN is folded into NaN, and the
  string rendering of a Decimal is abstracted by a nonempty rendering.
- JSON payloads are modeled structurally: a prices response is a list of
  pairs of a token id and a list of side/price string pairs, catalog events
  are records with optional fields.  The list-or-null coercion of
  parse_json_string_field is applied at ingestion in the source; the model
  receives the already-coerced fields, since no claim exercises the JSON
  string decoding itself.
- File system writes are modeled as a list of name/path pairs recorded in
  the run output, in the order the source performs them.
-/

/-! ## utils.py -/

/-- chunk_list from utils.py: successive chunks of the given size.  Written
with a fuel argument (the list length bounds the number of chunks) so that
the kernel can evaluate it; the source generator assumes a positive size. -/
def chunk_list_aux {α : Type} : ℕ → List α → ℕ → List (List α)
  | 0, _, _ => []
  | _, [], _ => []
  | fuel + 1, items, size =>
      if size = 0 then []
      else items.take size :: chunk_list_aux fuel (items.drop size) size

/-- chunk_list from utils.py. -/
def chunk_list {α : Type} (items : List α) (size : ℕ) : List (List α) :=
  chunk_list_aux items.length items size

/-- ASCII whitespace stripped by Python around a numeric string. -/
def isPyWhitespace (c : Char) : Bool :=
  c = ' ' || c = '\t' || c = '\n' || c = '\r' || c = '\x0b' || c = '\x0c'

/-- Leading and trailing whitespace and all underscores are removed before a
Decimal literal is parsed. -/
def decimalCleanup (s : String) : List Char :=
  (((s.data.dropWhile isPyWhitespace).reverse.dropWhile isPyWhitespace).reverse.filter
      (fun c => c ≠ '_')).map Char.toLower

/-- Value of a Python Decimal: an exact rational, an infinity, or NaN.
Signaling NaN is folded into NaN and arithmetic is quiet. -/
inductive PyDecimal : Type
  | fin (q : ℚ)
  | inf (neg : Bool)
  | nan
deriving DecidableEq

/-- Optional leading sign of a numeric literal; returns whether the value is
negated and the remaining characters. -/
def parseSign : List Char → Bool × List Char
  | '+' :: r => (false, r)
  | '-' :: r => (true, r)
  | r => (false, r)

/-- Digit run to a natural number. -/
def digitsToNat (ds : List Char) : ℕ :=
  ds.foldl (fun n c => 10 * n + (c.toNat - 48)) 0

/-- Exponent part of a Decimal literal: empty means exponent zero; otherwise
the letter e, an optional sign and a nonempty digit run consuming the rest. -/
def parseExpPart : List Char → Option ℤ
  | [] => some 0
  | 'e' :: r =>
      let sr := parseSign r
      let ds := sr.2.takeWhile Char.isDigit
      let rest := sr.2.dropWhile Char.isDigit
      if ds = [] ∨ rest ≠ [] then none
      else some (if sr.1 then -(digitsToNat ds : ℤ) else (digitsToNat ds : ℤ))
  | _ => none

/-- Unsigned finite Decimal literal: digits with an optional point and an
optional exponent part, evaluated exactly as a rational. -/
def parseUnsigned (cs : List Char) : Option ℚ :=
  let intPart := cs.takeWhile Char.isDigit
  let rest := cs.dropWhile Char.isDigit
  match rest with
  | '.' :: r2 =>
      let fracPart := r2.takeWhile Char.isDigit
      let rest2 := r2.dropWhile Char.isDigit
      if intPart = [] ∧ fracPart = [] then none
      else
        (parseExpPart rest2).map (fun e =>
          (digitsToNat (intPart ++ fracPart) : ℚ) *
            (10 : ℚ) ^ (e - (fracPart.length : ℤ)))
  | r2 =>
      if intPart = [] then none
      else (parseExpPart r2).map (fun e => (digitsToNat intPart : ℚ) * (10 : ℚ) ^ e)

/-- parse_decimal from utils.py on a string argument: the Decimal numeric
string grammar (sign, digits, point, exponent, infinities, NaN with an
optional payload), returning none where the Decimal constructor raises. -/
def parse_decimal (s : String) : Option PyDecimal :=
  let cs := decimalCleanup s
  let sb := parseSign cs
  let neg := sb.1
  let body := sb.2
  if body = [] then none
  else if body = ['i', 'n', 'f'] ∨ body = ['i', 'n', 'f', 'i', 'n', 'i', 't', 'y'] then
    some (.inf neg)
  else
    match body with
    | 'n' :: 'a' :: 'n' :: r => if r.all Char.isDigit then some .nan else none
    | 's' :: 'n' :: 'a' :: 'n' :: r => if r.all Char.isDigit then some .nan else none
    | _ => (parseUnsigned body).map (fun q => .fin (if neg then -q else q))

/-- Quiet Decimal addition. -/
def decAdd : PyDecimal → PyDecimal → PyDecimal
  | .nan, _ => .nan
  | _, .nan => .nan
  | .inf s, .inf t => if s = t then .inf s else .nan
  | .inf s, .fin _ => .inf s
  | .fin _, .inf t => .inf t
  | .fin a, .fin b => .fin (a + b)

/-- Quiet Decimal division by two. -/
def decHalf : PyDecimal → PyDecimal
  | .fin a => .fin (a / 2)
  | .inf s => .inf s
  | .nan => .nan

/-- Decimal digits of a natural number, with fuel so the kernel can
evaluate it. -/
def natDigitsAux : ℕ → ℕ → List Char
  | 0, _ => []
  | fuel + 1, n =>
      if n = 0 then [] else natDigitsAux fuel (n / 10) ++ [Char.ofNat (48 + n % 10)]

/-- Decimal rendering of a natural number. -/
def natStr (n : ℕ) : String :=
  if n = 0 then "0" else ⟨natDigitsAux (n + 1) n⟩

/-- Character rendering of a rational, used by renderPyDecimal. -/
def ratChars (q : ℚ) : List Char :=
  (if q.num < 0 then ['-'] else []) ++ (natStr q.num.natAbs).data ++
    '/' :: (natStr q.den).data

/-- Abstraction of the Python str rendering of a Decimal.  The exact digit
string of the source is not reproduced; the theorems rely only on the
rendering being nonempty and determined by the value. -/
def renderPyDecimal : PyDecimal → String
  | .nan => "NaN"
  | .inf false => "Infinity"
  | .inf true => "-Infinity"
  | .fin q => ⟨'D' :: ratChars q⟩

/-! ## clob.py -/

/-- TokenOutcome from models.py. -/
structure TokenOutcome : Type where
  token_id : String
  outcome : String
  market_id : String
  slug : String
  question : String
  active : Option Bool
  volume_num : Option ℚ
  liquidity_num : Option ℚ
deriving DecidableEq

/-- PriceResult from models.py. -/
structure PriceResult : Type where
  snapshot_ts_utc : String
  source : String
  market_id : String
  slug : String
  question : String
  token_id : String
  outcome : String
  bid : String
  ask : String
  mid : String
  active : Option Bool
  status : String
  volume_num : Option ℚ
  liquidity_num : Option ℚ
deriving DecidableEq

/-- Stats dictionary returned by fetch_all_prices. -/
structure PriceStats : Type where
  tokens_priced_ok : ℕ
  tokens_missing_price : ℕ
  api_errors : ℕ
deriving DecidableEq

/-- One entry of a prices response body: a token id with its side/price
pairs (prices already passed through str). -/
abbrev RespData : Type := List (String × List (String × String))

/-- Outcome of one HTTP attempt of a price batch: a response with a status
code and decoded body, a transport error (retried), or an exception that
escapes the worker, such as an undecodable body. -/
inductive AttemptResult : Type
  | response (status : ℕ) (data : RespData)
  | transportError
  | crash

/-- MAX_RETRIES from clob.py. -/
def MAX_RETRIES : ℕ := 3

/-- Attempt loop of ClobClient._request_with_retry: a 429 defers and
retries, a 5xx backs off and retries, a transport error backs off and
retries, 200 returns the body, any other status returns an empty body with
that status, and exhausting the attempts returns an empty body with status
zero.  The value none models an exception escaping the worker. -/
def request_with_retry_aux (att : ℕ → AttemptResult) : ℕ → ℕ → Option (RespData × ℕ)
  | _, 0 => some ([], 0)
  | attempt, fuel + 1 =>
      match att attempt with
      | .crash => none
      | .transportError => request_with_retry_aux att (attempt + 1) fuel
      | .response status data =>
          if status = 429 then request_with_retry_aux att (attempt + 1) fuel
          else if 500 ≤ status then request_with_retry_aux att (attempt + 1) fuel
          else if status = 200 then some (data, 200)
          else some ([], status)

/-- ClobClient._request_with_retry over an attempt oracle. -/
def request_with_retry (att : ℕ → AttemptResult) : Option (RespData × ℕ) :=
  request_with_retry_aux att 0 MAX_RETRIES

/-- BUY and SELL prices gathered for one token; both sides start absent. -/
structure SideMap : Type where
  buy : Option String := none
  sell : Option String := none
deriving DecidableEq

/-- Merge one side/price pair of a response entry; only BUY and SELL keys
are kept. -/
def applySide (m : SideMap) (sp : String × String) : SideMap :=
  if sp.1 = "BUY" then { m with buy := some sp.2 }
  else if sp.1 = "SELL" then { m with sell := some sp.2 }
  else m

/-- Merge one response entry into the per-token price map. -/
def applyEntry (pm : String → SideMap) (e : String × List (String × String)) :
    String → SideMap :=
  fun tid => if tid = e.1 then e.2.foldl applySide (pm e.1) else pm tid

/-- Merge a whole 200 response body into the per-token price map. -/
def applyData (pm : String → SideMap) (data : RespData) : String → SideMap :=
  data.foldl applyEntry pm

/-- Collection state of the batch loop of fetch_all_prices: the per-token
price map (a token with no entry behaves as an empty side map, matching the
dictionary default of the source), the flagged token ids, and the raw batch
responses in completion order. -/
structure CollectState : Type where
  pm : String → SideMap
  apiErrors : List String
  raws : List (ℕ × ℕ × RespData)

/-- Process the completed batch with index i, as in the body of the
as_completed loop of fetch_all_prices: a worker exception flags every token
of the batch, a 200 response with a nonempty body is merged, any non-200
status flags every token of the batch, and a 200 with an empty body does
neither. -/
def collect_batch (batches : List (List (String × String))) (att : ℕ → ℕ → AttemptResult)
    (st : CollectState) (i : ℕ) : CollectState :=
  match request_with_retry (att i) with
  | none =>
      { st with apiErrors := st.apiErrors ++ ((batches.getD i []).map Prod.fst) }
  | some (data, status) =>
      let st := { st with raws := st.raws ++ [(i, status, data)] }
      if status = 200 ∧ data ≠ [] then { st with pm := applyData st.pm data }
      else if status ≠ 200 then
        { st with apiErrors := st.apiErrors ++ ((batches.getD i []).map Prod.fst) }
      else st

/-- Request items of fetch_all_prices: for every token one BUY item then one
SELL item, in input token order. -/
def request_items (tokens : List TokenOutcome) : List (String × String) :=
  tokens.flatMap (fun t => [(t.token_id, "BUY"), (t.token_id, "SELL")])

/-- Batches of fetch_all_prices. -/
def clob_batches (tokens : List TokenOutcome) (batch_size : ℕ) :
    List (List (String × String)) :=
  chunk_list (request_items tokens) batch_size

/-- Result of the whole batch-dispatch phase of fetch_all_prices, folding
the batches in completion order. -/
def clob_collect (tokens : List TokenOutcome) (batch_size : ℕ)
    (att : ℕ → ℕ → AttemptResult) (order : List ℕ) : CollectState :=
  order.foldl (collect_batch (clob_batches tokens batch_size) att)
    { pm := fun _ => {}, apiErrors := [], raws := [] }

/-- Mid computation of fetch_all_prices, before rendering: defined when both
bid and ask strings are nonempty and parse as Decimals, as the quiet Decimal
mean. -/
def mid_of (bid_str ask_str : String) : Option PyDecimal :=
  if bid_str ≠ "" ∧ ask_str ≠ "" then
    match parse_decimal bid_str, parse_decimal ask_str with
    | some b, some a => some (decHalf (decAdd b a))
    | _, _ => none
  else none

/-- Rendered mid field: empty when mid_of is undefined. -/
def mid_string (bid_str ask_str : String) : String :=
  match mid_of bid_str ask_str with
  | some d => renderPyDecimal d
  | none => ""

/-- Finalization of one token in fetch_all_prices: bid is the SELL price,
ask is the BUY price, mid as above, and the status is api_error when the
token was flagged, else missing_price when both sides are absent, else ok. -/
def finalize_token (snapshot_ts : String) (pm : String → SideMap)
    (apiErrs : List String) (t : TokenOutcome) : PriceResult :=
  let price_data := pm t.token_id
  let bid_str := price_data.sell.getD ""
  let ask_str := price_data.buy.getD ""
  let mid_str := mid_string bid_str ask_str
  let status :=
    if t.token_id ∈ apiErrs then "api_error"
    else if bid_str = "" ∧ ask_str = "" then "missing_price"
    else "ok"
  { snapshot_ts_utc := snapshot_ts
    source := "polymarket_clob"
    market_id := t.market_id
    slug := t.slug
    question := t.question
    token_id := t.token_id
    outcome := t.outcome
    bid := bid_str
    ask := ask_str
    mid := mid_str
    active := t.active
    status := status
    volume_num := t.volume_num
    liquidity_num := t.liquidity_num }

/-- Stats of fetch_all_prices; the source accumulates the three counters in
the finalization loop, counted here equivalently over the results. -/
def price_stats (results : List PriceResult) : PriceStats :=
  { tokens_priced_ok := results.countP (fun r => r.status == "ok")
    tokens_missing_price := results.countP (fun r => r.status == "missing_price")
    api_errors := results.countP (fun r => r.status == "api_error") }

/-- ClobClient.fetch_all_prices: build the request items, chunk them into
batches, dispatch the batches (the oracle att gives every attempt outcome,
order gives the completion order of the worker pool), then produce exactly
one PriceResult per input token, in input order.  Returns the results, the
raw batch responses and the stats. -/
def fetch_all_prices (tokens : List TokenOutcome) (batch_size : ℕ)
    (att : ℕ → ℕ → AttemptResult) (order : List ℕ) (snapshot_ts : String) :
    List PriceResult × List (ℕ × ℕ × RespData) × PriceStats :=
  let st := clob_collect tokens batch_size att order
  let results := tokens.map (finalize_token snapshot_ts st.pm st.apiErrors)
  (results, st.raws, price_stats results)

/-- A batch counts as failed when its worker raised or its request loop did
not end with a 200: in particular when the three attempts were exhausted
(status zero). -/
def batch_failed (att : ℕ → ℕ → AttemptResult) (i : ℕ) : Bool :=
  match request_with_retry (att i) with
  | none => true
  | some (_, status) => status ≠ 200

/-- Whether some batch in the completion order returned a 200 response with
a nonempty body containing an entry for the given token id. -/
def token_in_successful_response (att : ℕ → ℕ → AttemptResult) (order : List ℕ)
    (tid : String) : Bool :=
  order.any (fun i =>
    match request_with_retry (att i) with
    | some (data, status) => status = 200 ∧ data ≠ [] ∧ tid ∈ data.map Prod.fst
    | none => false)

/-! ## gamma.py -/

/-- First tag of an event, for the category fallback: a JSON object with
optional label and slug, a plain string, or any other JSON value. -/
inductive TagVal : Type
  | obj (label slug : Option String)
  | str (s : String)
  | other
deriving DecidableEq

/-- Nested market payload as consumed by the extraction stage.  The fields
outcomesParsed and clobTokenIdsParsed model the fields set at ingestion by
parse_json_string_field, whose list-or-null coercion is taken as an input
here (no claim exercises the JSON string decoding itself). -/
structure RawMarket : Type where
  id : Option String := none
  slug : Option String := none
  question : Option String := none
  conditionId : Option String := none
  active : Option Bool := none
  closed : Option Bool := none
  endDateIso : Option String := none
  endDate : Option String := none
  enableOrderBook : Option Bool := none
  outcomesParsed : Option (List String) := none
  clobTokenIdsParsed : Option (List String) := none
  volumeNum : Option ℚ := none
  liquidityNum : Option ℚ := none
deriving DecidableEq

/-- Event payload of the events endpoint.  A missing or non-list markets
field is modeled as the empty list, which the runner loop treats the same
way (it skips the event). -/
structure RawEvent : Type where
  category : Option String := none
  tags : Option (List TagVal) := none
  markets : List RawMarket := []
deriving DecidableEq

/-- Outcome of one HTTP attempt of a catalog page request: a response with
status code and decoded JSON body (none models a decoded body that is not a
list), a transport error (retried), or an exception that is not a transport
error, such as an undecodable body, which aborts without retrying. -/
inductive GammaAttempt : Type
  | response (status : ℕ) (body : Option (List RawEvent))
  | transportError
  | crash

/-- GammaClient._request_with_retry, composed with the body decoding of
fetch_all_events: a 429 defers and retries, a 5xx backs off and retries, a
transport error backs off and retries, any other 4xx raises
(raise_for_status), exhausting the attempts raises, and otherwise the
decoded body is returned.  An error value is a raised exception, which is
fatal for the run. -/
def gamma_request_aux (att : ℕ → GammaAttempt) : ℕ → ℕ → Except Unit (Option (List RawEvent))
  | _, 0 => .error ()
  | attempt, fuel + 1 =>
      match att attempt with
      | .crash => .error ()
      | .transportError => gamma_request_aux att (attempt + 1) fuel
      | .response status body =>
          if status = 429 then gamma_request_aux att (attempt + 1) fuel
          else if 500 ≤ status then gamma_request_aux att (attempt + 1) fuel
          else if 400 ≤ status then .error ()
          else .ok body

/-- One catalog page request with retries, over an attempt oracle. -/
def gamma_request (att : ℕ → GammaAttempt) : Except Unit (Option (List RawEvent)) :=
  gamma_request_aux att 0 MAX_RETRIES

/-- Python str of a bool, lowercased, as sent in the query parameters. -/
def pyBoolStr (b : Bool) : String := if b then "true" else "false"

/-- Query parameters of one page request of fetch_all_events: limit and
offset always; tag_id and series_id only when given and nonempty (Python
truthiness); active and closed only when given. -/
def page_params (page_size offset : ℕ) (tag_id series_id : Option String)
    (active closed : Option Bool) : List (String × String) :=
  [("limit", natStr page_size), ("offset", natStr offset)] ++
    (match tag_id with
      | some t => if t ≠ "" then [("tag_id", t)] else []
      | none => []) ++
    (match series_id with
      | some s => if s ≠ "" then [("series_id", s)] else []
      | none => []) ++
    (match active with
      | some b => [("active", pyBoolStr b)]
      | none => []) ++
    (match closed with
      | some b => [("closed", pyBoolStr b)]
      | none => [])

/-- Python truthiness of the max_events bound: a None or zero bound is no
bound at all. -/
def max_events_hit (max_events : Option ℕ) (n : ℕ) : Bool :=
  match max_events with
  | some m => decide (m ≠ 0 ∧ m ≤ n)
  | none => false

/-- Pagination loop of GammaClient.fetch_all_events.  The fuel is the number
of pages still allowed (max_pages minus the page counter), offset and count
mirror the offset variable and the accumulated length; the loop stops before
a request when the max_events bound is reached, and after a request when the
body is not a list, the page is empty, or the page is shorter than
page_size.  Returns the events and the issued request parameter lists from
this point on. -/
def fetch_all_events_go (att : ℕ → ℕ → GammaAttempt) (tag_id series_id : Option String)
    (max_events : Option ℕ) (page_size : ℕ) (active closed : Option Bool) :
    ℕ → ℕ → ℕ → ℕ → Except Unit (List RawEvent × List (List (String × String)))
  | 0, _, _, _ => .ok ([], [])
  | fuel + 1, page, offset, count =>
      if max_events_hit max_events count then .ok ([], [])
      else
        let params := page_params page_size offset tag_id series_id active closed
        match gamma_request (att page) with
        | .error e => .error e
        | .ok none => .ok ([], [params])
        | .ok (some events) =>
            if events = [] then .ok ([], [params])
            else if events.length < page_size then .ok (events, [params])
            else
              match fetch_all_events_go att tag_id series_id max_events page_size
                  active closed fuel (page + 1) (offset + events.length)
                  (count + events.length) with
              | .error e => .error e
              | .ok (evs, rs) => .ok (events ++ evs, params :: rs)

/-- DEFAULT_MAX_PAGES from gamma.py. -/
def DEFAULT_MAX_PAGES : ℕ := 500

/-- GammaClient.fetch_all_events over a per-page attempt oracle: paginate
sequentially and truncate to max_events when that bound is truthy.  Returns
the events and every issued request parameter list. -/
def fetch_all_events (att : ℕ → ℕ → GammaAttempt) (tag_id series_id : Option String)
    (max_events : Option ℕ) (page_size max_pages : ℕ) (active closed : Option Bool) :
    Except Unit (List RawEvent × List (List (String × String))) :=
  match fetch_all_events_go att tag_id series_id max_events page_size active closed
      max_pages 0 0 0 with
  | .error e => .error e
  | .ok (evs, reqs) =>
      .ok
        ((match max_events with
          | some m => if m ≠ 0 then evs.take m else evs
          | none => evs), reqs)

/-! ## runner.py -/

/-- MarketRecord from models.py.  The two JSON-dump fields hold the dumped
lists; the JSON text encoding of safe_json_dumps is abstracted, no claim
reads these fields. -/
structure MarketRecord : Type where
  pulled_at_utc : String
  source : String
  market_id : String
  slug : String
  question : String
  category : String
  condition_id : String
  active : Option Bool
  closed : Option Bool
  end_date_utc : String
  outcomes_json : List String
  clob_token_ids_json : List String
  volume_num : Option ℚ
  liquidity_num : Option ℚ
deriving DecidableEq

/-- First truthy of two strings, as the Python or chain on possibly missing
string fields (a missing field and an empty string are both falsy). -/
def pyOrStr (a b : String) : String := if a ≠ "" then a else b

/-- Category fallback of extract_market_record: the event category field if
truthy, else the label or slug of the first tag when the tags field is a
nonempty list (a first tag that is neither an object nor a string yields the
empty category). -/
def derive_category (ev : RawEvent) : String :=
  let category0 := ev.category.getD ""
  if category0 ≠ "" then category0
  else
    match ev.tags with
    | some (t :: _) =>
        match t with
        | .obj label slug => pyOrStr (label.getD "") (slug.getD "")
        | .str s => s
        | .other => ""
    | _ => ""

/-- extract_market_record from runner.py. -/
def extract_market_record (market : RawMarket) (event : RawEvent) (pulled_at : String) :
    MarketRecord :=
  { pulled_at_utc := pulled_at
    source := "polymarket_gamma"
    market_id := market.id.getD ""
    slug := market.slug.getD ""
    question := market.question.getD ""
    category := derive_category event
    condition_id := market.conditionId.getD ""
    active := market.active
    closed := market.closed
    end_date_utc := pyOrStr (market.endDateIso.getD "") (market.endDate.getD "")
    outcomes_json := market.outcomesParsed.getD []
    clob_token_ids_json := market.clobTokenIdsParsed.getD []
    volume_num := market.volumeNum
    liquidity_num := market.liquidityNum }

/-- Python falsiness of an optional list: missing or empty. -/
def pyFalsyList (o : Option (List String)) : Bool :=
  match o with
  | none => true
  | some l => l = []

/-- extract_token_outcomes from runner.py: requires both lists truthy and of
equal length, skips falsy token ids, and returns none when no token
survives. -/
def extract_token_outcomes (market : RawMarket) : Option (List TokenOutcome) :=
  let outcomes := market.outcomesParsed
  let token_ids := market.clobTokenIdsParsed
  if pyFalsyList outcomes ∨ pyFalsyList token_ids then none
  else
    let os := outcomes.getD []
    let ts := token_ids.getD []
    if os.length ≠ ts.length then none
    else
      let result : List TokenOutcome := ts.enum.filterMap (fun p =>
        if p.2 = "" then none
        else
          some
            { token_id := p.2
              outcome := os.getD p.1 ""
              market_id := market.id.getD ""
              slug := market.slug.getD ""
              question := market.question.getD ""
              active := market.active
              volume_num := market.volumeNum
              liquidity_num := market.liquidityNum })
      if result = [] then none else some result

/-- Accumulator of the extraction loop of run_fetch. -/
structure ExtractAcc : Type where
  records : List MarketRecord
  tokens : List TokenOutcome
  markets_with_tokens : ℕ
  markets_skipped_no_tokens : ℕ
  markets_skipped_mismatched : ℕ
  markets_not_clob_tradable : ℕ
  total_markets_processed : ℕ

/-- Whether the category filter rejects a record: only a truthy filter
applies, as a case-insensitive substring test. -/
def category_filter_rejects (category_filter : Option String) (category : String) : Bool :=
  match category_filter with
  | some f =>
      if f ≠ "" then
        !((category.data.map Char.toLower).tails.any
          (fun t => (f.data.map Char.toLower).isPrefixOf t))
      else false
  | none => false

/-- Python truthiness of the max_markets bound, as in the break checks of
the extraction loop. -/
def max_markets_hit (max_markets : Option ℕ) (n : ℕ) : Bool :=
  max_events_hit max_markets n

/-- Body of the extraction loop of run_fetch for one market: build the
record, apply the category filter, append the record, then classify: no or
empty arrays count as skipped-no-tokens; unequal lengths count as
mismatched; otherwise an explicitly false order-book flag is tallied and the
extracted tokens are queued (an extraction returning none counts as
skipped-no-tokens). -/
def process_market (pulled_at : String) (category_filter : Option String)
    (event : RawEvent) (market : RawMarket) (acc : ExtractAcc) : ExtractAcc :=
  let record := extract_market_record market event pulled_at
  if category_filter_rejects category_filter record.category then acc
  else
    let acc :=
      { acc with
        total_markets_processed := acc.total_markets_processed + 1
        records := acc.records ++ [record] }
    if pyFalsyList market.outcomesParsed ∨ pyFalsyList market.clobTokenIdsParsed then
      { acc with markets_skipped_no_tokens := acc.markets_skipped_no_tokens + 1 }
    else if (market.outcomesParsed.getD []).length ≠ (market.clobTokenIdsParsed.getD []).length then
      { acc with markets_skipped_mismatched := acc.markets_skipped_mismatched + 1 }
    else
      let acc :=
        if market.enableOrderBook = some false then
          { acc with markets_not_clob_tradable := acc.markets_not_clob_tradable + 1 }
        else acc
      match extract_token_outcomes market with
      | some ts =>
          { acc with
            tokens := acc.tokens ++ ts
            markets_with_tokens := acc.markets_with_tokens + 1 }
      | none => { acc with markets_skipped_no_tokens := acc.markets_skipped_no_tokens + 1 }

/-- Initial extraction accumulator. -/
def extract_init : ExtractAcc :=
  { records := [], tokens := [], markets_with_tokens := 0, markets_skipped_no_tokens := 0
    markets_skipped_mismatched := 0, markets_not_clob_tradable := 0
    total_markets_processed := 0 }

/-- Extraction loop of run_fetch over all events.  The nested loop of the
source breaks out of both levels as soon as the max_markets bound is
reached, which is modeled by flattening the event/market pairs and skipping
every remaining pair once the bound holds (the processed total never
decreases, so the guard stays true). -/
def extract_markets (pulled_at : String) (category_filter : Option String)
    (max_markets : Option ℕ) (events : List RawEvent) : ExtractAcc :=
  (events.flatMap (fun e => e.markets.map (fun m => (e, m)))).foldl
    (fun acc em =>
      if max_markets_hit max_markets acc.total_markets_processed then acc
      else process_market pulled_at category_filter em.1 em.2 acc)
    extract_init

/-- RunManifest from models.py.  Timestamps are injected strings and the
duration is not modeled. -/
structure RunManifest : Type where
  start_ts_utc : String := ""
  end_ts_utc : String := ""
  date : String := ""
  markets_total : ℕ := 0
  markets_with_tokens : ℕ := 0
  markets_skipped_no_tokens : ℕ := 0
  markets_skipped_mismatched_arrays : ℕ := 0
  markets_not_clob_tradable : ℕ := 0
  tokens_total : ℕ := 0
  tokens_priced_ok : ℕ := 0
  tokens_missing_price : ℕ := 0
  api_errors : ℕ := 0
  price_batches : ℕ := 0
  files : List (String × String) := []
deriving DecidableEq

/-- Observable output of a completed run: the manifest, every catalog
request issued, every file write in order, and the price results. -/
structure RunOutput : Type where
  manifest : RunManifest
  gamma_requests : List (List (String × String))
  writes : List (String × String)
  results : List PriceResult
deriving DecidableEq

/-- Sports-only catalog phase: one fetch_all_events call per series id (the
oracle is indexed by the position of the series in the list), with the
series id rendered by str, concatenating events and requests; any fatal
fetch aborts the whole run. -/
def fetch_sports_go (gamma_att : ℕ → ℕ → ℕ → GammaAttempt) (max_events : Option ℕ)
    (page_size : ℕ) (active closed : Option Bool) :
    ℕ → List ℤ → Except Unit (List RawEvent × List (List (String × String)))
  | _, [] => .ok ([], [])
  | idx, sid :: rest =>
      match fetch_all_events (gamma_att idx) none (some (toString sid)) max_events
          page_size DEFAULT_MAX_PAGES active closed with
      | .error e => .error e
      | .ok (evs, rqs) =>
          match fetch_sports_go gamma_att max_events page_size active closed (idx + 1) rest with
          | .error e => .error e
          | .ok (evs2, rqs2) => .ok (evs ++ evs2, rqs ++ rqs2)

/-- Catalog phase of run_fetch: sports mode when the series list is truthy,
else a single fetch with the optional tag id. -/
def run_fetch_gamma (gamma_att : ℕ → ℕ → ℕ → GammaAttempt) (tag_id : Option String)
    (max_events : Option ℕ) (page_size : ℕ) (active closed : Option Bool)
    (sports_series_ids : Option (List ℤ)) :
    Except Unit (List RawEvent × List (List (String × String))) :=
  match sports_series_ids with
  | some ids =>
      if ids ≠ [] then fetch_sports_go gamma_att max_events page_size active closed 0 ids
      else fetch_all_events (gamma_att 0) tag_id none max_events page_size
        DEFAULT_MAX_PAGES active closed
  | none =>
      fetch_all_events (gamma_att 0) tag_id none max_events page_size
        DEFAULT_MAX_PAGES active closed

/-- run_fetch from runner.py, over injected timestamps and oracles.  An
error value is the uncaught exception of a fatal catalog failure: nothing is
written in that case.  Otherwise the raw catalog dump and the markets table
are written, a dry run writes the manifest and stops, and a full run prices
the queued tokens (when there are any), writes the per-batch raw responses,
the prices table and its latest copy, and finally the manifest. -/
def run_fetch (date_str now : String) (tag_id : Option String) (max_markets : Option ℕ)
    (batch_size : ℕ) (dry_run : Bool) (gamma_page_size : ℕ) (active_only : Bool)
    (category_filter : Option String) (sports_series_ids : Option (List ℤ))
    (gamma_att : ℕ → ℕ → ℕ → GammaAttempt) (clob_att : ℕ → ℕ → AttemptResult)
    (clob_order : List ℕ) : Except Unit RunOutput :=
  let gamma_active : Option Bool := if active_only then some true else none
  let gamma_closed : Option Bool := if active_only then some false else none
  let max_events : Option ℕ :=
    match max_markets with
    | some m => if m ≠ 0 then some m else none
    | none => none
  match run_fetch_gamma gamma_att tag_id max_events gamma_page_size gamma_active
      gamma_closed sports_series_ids with
  | .error e => .error e
  | .ok (raw_events, greqs) =>
      let writes0 := [("raw_gamma", "raw/gamma/events_" ++ date_str ++ ".json")]
      let acc := extract_markets now category_filter max_markets raw_events
      let manifest0 : RunManifest :=
        { start_ts_utc := now
          date := date_str
          markets_total := acc.total_markets_processed
          markets_with_tokens := acc.markets_with_tokens
          markets_skipped_no_tokens := acc.markets_skipped_no_tokens
          markets_skipped_mismatched_arrays := acc.markets_skipped_mismatched
          markets_not_clob_tradable := acc.markets_not_clob_tradable
          tokens_total := acc.tokens.length
          files := [("raw_gamma", "raw/gamma/events_" ++ date_str ++ ".json"),
            ("markets_csv", "markets/markets_" ++ date_str ++ ".csv")] }
      let writes1 := writes0 ++ [("markets_csv", "markets/markets_" ++ date_str ++ ".csv")]
      let manifest_path := "run/run_manifest_" ++ date_str ++ ".json"
      if dry_run then
        .ok
          { manifest := { manifest0 with end_ts_utc := now }
            gamma_requests := greqs
            writes := writes1 ++ [("manifest", manifest_path)]
            results := [] }
      else if acc.tokens ≠ [] then
        let priced := fetch_all_prices acc.tokens batch_size clob_att clob_order now
        let batch_writes := priced.2.1.map (fun b =>
          ("clob_batch", "raw/clob/prices_batches/markets_" ++ date_str ++ "/batch_" ++
            natStr b.1 ++ ".json"))
        let manifest1 :=
          { manifest0 with
            end_ts_utc := now
            price_batches := priced.2.1.length
            tokens_priced_ok := priced.2.2.tokens_priced_ok
            tokens_missing_price := priced.2.2.tokens_missing_price
            api_errors := priced.2.2.api_errors
            files := manifest0.files ++
              [("prices_csv", "prices/prices_" ++ date_str ++ ".csv"),
                ("latest_csv", "prices/latest.csv"),
                ("manifest", manifest_path)] }
        .ok
          { manifest := manifest1
            gamma_requests := greqs
            writes := writes1 ++ batch_writes ++
              [("prices_csv", "prices/prices_" ++ date_str ++ ".csv"),
                ("latest_csv", "prices/latest.csv"),
                ("manifest", manifest_path)]
            results := priced.1 }
      else
        .ok
          { manifest :=
              { manifest0 with
                end_ts_utc := now
                files := manifest0.files ++ [("manifest", manifest_path)] }
            gamma_requests := greqs
            writes := writes1 ++ [("manifest", manifest_path)]
            results := [] }

/-! ## Shared defaults and helper lemmas -/

/-- Default token used by positional lookups in statements. -/
def defaultTokenOutcome : TokenOutcome :=
  { token_id := "", outcome := "", market_id := "", slug := "", question := ""
    active := none, volume_num := none, liquidity_num := none }

/-- Default price row used by positional lookups in statements. -/
def defaultPriceResult : PriceResult :=
  finalize_token "" (fun _ => {}) [] defaultTokenOutcome

/-- Token at position i of the input list. -/
def nth_token (tokens : List TokenOutcome) (i : ℕ) : TokenOutcome :=
  tokens.getD i defaultTokenOutcome

/-- Price row at position i of the fetch_all_prices output. -/
def nth_price (tokens : List TokenOutcome) (batch_size : ℕ) (att : ℕ → ℕ → AttemptResult)
    (order : List ℕ) (snapshot_ts : String) (i : ℕ) : PriceResult :=
  (fetch_all_prices tokens batch_size att order snapshot_ts).1.getD i defaultPriceResult

/-- Concrete token used by witnesses. -/
def exToken : TokenOutcome :=
  { token_id := "t1", outcome := "Yes", market_id := "m1", slug := "s", question := "q"
    active := none, volume_num := none, liquidity_num := none }

/-- Price oracle answering every batch with both sides of token t1. -/
def exAttOk : ℕ → ℕ → AttemptResult :=
  fun _ _ => .response 200 [("t1", [("SELL", "0.6"), ("BUY", "0.4")])]

/-- Price oracle failing batch zero on every attempt and answering every
other batch with both sides of token t1. -/
def exAttSplit : ℕ → ℕ → AttemptResult :=
  fun i _ =>
    if i = 0 then .transportError
    else .response 200 [("t1", [("SELL", "0.6"), ("BUY", "0.4")])]

/-- Price oracle failing every attempt of every batch. -/
def exAttFail : ℕ → ℕ → AttemptResult := fun _ _ => .transportError

/-- Catalog oracle answering every page with an empty list. -/
def exGammaEmpty : ℕ → ℕ → ℕ → GammaAttempt := fun _ _ _ => .response 200 (some [])

/-- Catalog oracle whose every attempt raises a non-transport exception. -/
def exGammaCrash : ℕ → ℕ → ℕ → GammaAttempt := fun _ _ _ => .crash

/-- Concrete two-token market used by witnesses. -/
def exMarket : RawMarket :=
  { id := some "m1"
    outcomesParsed := some ["Yes", "No"]
    clobTokenIdsParsed := some ["t1", "t2"] }

/-- Concrete event with one two-token market, used by witnesses. -/
def exEvent : RawEvent := { markets := [exMarket] }

/-- Catalog oracle answering page zero with exEvent and later pages with an
empty list. -/
def exGammaOnePage : ℕ → ℕ → ℕ → GammaAttempt :=
  fun _ p _ => if p = 0 then .response 200 (some [exEvent]) else .response 200 (some [])

/-- Number of events the catalog oracle serves for a page (zero when the
request fails or the body is not a list). -/
def page_len (att : ℕ → ℕ → GammaAttempt) (p : ℕ) : ℕ :=
  match gamma_request (att p) with
  | .ok (some e) => e.length
  | _ => 0

/-- Total number of events served by the k pages starting at the given
page. -/
def page_len_sum (att : ℕ → ℕ → GammaAttempt) : ℕ → ℕ → ℕ
  | _, 0 => 0
  | page, k + 1 => page_len att page + page_len_sum att (page + 1) k

/-- A concrete dry run whose catalog answers one empty page. -/
def exRunOk : Except Unit RunOutput :=
  run_fetch "2024-01-01" "now" none none 500 true 500 false none none exGammaEmpty
    exAttOk []

/-- The output of exRunOk. -/
def exRunOut : RunOutput :=
  match exRunOk with
  | .ok o => o
  | .error _ => { manifest := {}, gamma_requests := [], writes := [], results := [] }

/-- A concrete dry run with a tag id whose catalog answers one empty page. -/
def exRunTag : Except Unit RunOutput :=
  run_fetch "2024-01-01" "now" (some "7") none 500 true 500 false none none
    exGammaEmpty exAttOk []

/-- The output of exRunTag. -/
def exRunTagOut : RunOutput :=
  match exRunTag with
  | .ok o => o
  | .error _ => { manifest := {}, gamma_requests := [], writes := [], results := [] }

/-- Catalog page oracle answering every page with two events. -/
def exGammaPages : ℕ → ℕ → GammaAttempt :=
  fun _ _ => .response 200 (some [exEvent, exEvent])

/-- Result of paginating exGammaPages with page size two and three pages. -/
def exPagesOut : List RawEvent × List (List (String × String)) :=
  match fetch_all_events exGammaPages none none none 2 3 none none with
  | .ok p => p
  | .error _ => ([], [])

lemma fetch_all_prices_results (tokens : List TokenOutcome) (batch_size : ℕ)
    (att : ℕ → ℕ → AttemptResult) (order : List ℕ) (snap : String) :
    (fetch_all_prices tokens batch_size att order snap).1 =
      tokens.map (finalize_token snap (clob_collect tokens batch_size att order).pm
        (clob_collect tokens batch_size att order).apiErrors) := rfl

lemma nth_price_eq (tokens : List TokenOutcome) (batch_size : ℕ)
    (att : ℕ → ℕ → AttemptResult) (order : List ℕ) (snap : String) (i : ℕ)
    (hi : i < tokens.length) :
    nth_price tokens batch_size att order snap i =
      finalize_token snap (clob_collect tokens batch_size att order).pm
        (clob_collect tokens batch_size att order).apiErrors (nth_token tokens i) := by
  unfold nth_price nth_token
  rw [fetch_all_prices_results]
  rw [List.getD_eq_getElem?_getD, List.getD_eq_getElem?_getD, List.getElem?_map]
  rw [List.getElem?_eq_getElem hi]
  rfl

lemma process_market_partition (pa : String) (cf : Option String) (ev : RawEvent)
    (m : RawMarket) (acc : ExtractAcc)
    (h : acc.total_markets_processed =
      acc.markets_with_tokens + acc.markets_skipped_no_tokens +
        acc.markets_skipped_mismatched) :
    (process_market pa cf ev m acc).total_markets_processed =
      (process_market pa cf ev m acc).markets_with_tokens +
        (process_market pa cf ev m acc).markets_skipped_no_tokens +
        (process_market pa cf ev m acc).markets_skipped_mismatched := by
  unfold process_market
  rcases hx : extract_token_outcomes m with _ | ts0 <;>
    simp only [hx] <;>
    split_ifs <;>
    simp_all <;>
    omega

lemma extract_step_partition (pa : String) (cf : Option String) (mm : Option ℕ)
    (l : List (RawEvent × RawMarket)) (acc : ExtractAcc)
    (h : acc.total_markets_processed =
      acc.markets_with_tokens + acc.markets_skipped_no_tokens +
        acc.markets_skipped_mismatched) :
    (l.foldl
        (fun acc em =>
          if max_markets_hit mm acc.total_markets_processed then acc
          else process_market pa cf em.1 em.2 acc)
        acc).total_markets_processed =
      (l.foldl
          (fun acc em =>
            if max_markets_hit mm acc.total_markets_processed then acc
            else process_market pa cf em.1 em.2 acc)
          acc).markets_with_tokens +
        (l.foldl
            (fun acc em =>
              if max_markets_hit mm acc.total_markets_processed then acc
              else process_market pa cf em.1 em.2 acc)
            acc).markets_skipped_no_tokens +
        (l.foldl
            (fun acc em =>
              if max_markets_hit mm acc.total_markets_processed then acc
              else process_market pa cf em.1 em.2 acc)
            acc).markets_skipped_mismatched := by
  induction l generalizing acc with
  | nil => simpa using h
  | cons hd tl ih =>
      simp only [List.foldl_cons]
      split
      · exact ih acc h
      · exact ih _ (process_market_partition pa cf hd.1 hd.2 acc h)

/-- C10: after extraction, the market counters partition the accepted
markets: the processed total equals the sum of the with-tokens,
skipped-no-tokens and skipped-mismatched counters (the not-CLOB-tradable
counter is an overlapping tag and takes no part in the partition). -/
theorem extract_markets_counters_partition (pulled_at : String)
    (category_filter : Option String) (max_markets : Option ℕ)
    (events : List RawEvent) :
    (extract_markets pulled_at category_filter max_markets events).total_markets_processed =
      (extract_markets pulled_at category_filter max_markets events).markets_with_tokens +
        (extract_markets pulled_at category_filter max_markets events).markets_skipped_no_tokens +
        (extract_markets pulled_at category_filter max_markets
          events).markets_skipped_mismatched := by
  unfold extract_markets
  exact extract_step_partition pulled_at category_filter max_markets _ extract_init rfl

/-- C8: a processed market whose parsed outcome list and token id list are
both present and nonempty but of unequal length contributes exactly one
record to the markets output, queues no tokens, and bumps exactly the
mismatched-arrays counter (stated on the body of the extraction loop, for a
market that passes the category filter). -/
theorem mismatched_market_kept_not_priced (pa : String) (cf : Option String)
    (ev : RawEvent) (m : RawMarket) (acc : ExtractAcc) (os ts : List String)
    (hos : m.outcomesParsed = some os) (hts : m.clobTokenIdsParsed = some ts)
    (hos0 : os ≠ []) (hts0 : ts ≠ []) (hlen : os.length ≠ ts.length)
    (hcf : category_filter_rejects cf (extract_market_record m ev pa).category = false) :
    process_market pa cf ev m acc =
      { acc with
        records := acc.records ++ [extract_market_record m ev pa]
        total_markets_processed := acc.total_markets_processed + 1
        markets_skipped_mismatched := acc.markets_skipped_mismatched + 1 } := by
  unfold process_market
  simp only [hos, hts, pyFalsyList, Option.getD_some, hcf, Bool.false_eq_true, if_false,
    decide_eq_true_eq]
  split_ifs with h1 h2 <;>
    first
      | rfl
      | (cases h1 with
          | inl h => exact absurd h hos0
          | inr h => exact absurd h hts0)
      | exact absurd hlen h2

/-- C8 witness: a concrete mismatched market processed from the initial
accumulator. -/
theorem mismatched_market_kept_not_priced_witness :
    process_market "now" none {}
        { id := some "m2", outcomesParsed := some ["Yes", "No"],
          clobTokenIdsParsed := some ["t9"] } extract_init =
      { extract_init with
        records := [extract_market_record
          { id := some "m2", outcomesParsed := some ["Yes", "No"],
            clobTokenIdsParsed := some ["t9"] } {} "now"]
        total_markets_processed := 1
        markets_skipped_mismatched := 1 } :=
  mismatched_market_kept_not_priced "now" none {}
    { id := some "m2", outcomesParsed := some ["Yes", "No"],
      clobTokenIdsParsed := some ["t9"] } extract_init ["Yes", "No"] ["t9"]
    rfl rfl (by decide) (by decide) (by decide) (by decide)

/-- C9 counterexample: a market whose order-book flag is explicitly false
but whose token arrays are absent is counted as skipped-no-tokens and does
NOT increment the not-CLOB-tradable counter, although the claim asks for an
unconditional increment for every explicitly-false flag. -/
theorem not_clob_counter_skips_tokenless_market :
    (({ enableOrderBook := some false } : RawMarket).enableOrderBook = some false) ∧
      ExtractAcc.markets_not_clob_tradable
          (process_market "now" none {} { enableOrderBook := some false } extract_init) = 0 ∧
      ExtractAcc.markets_skipped_no_tokens
          (process_market "now" none {} { enableOrderBook := some false } extract_init) = 1 := by
  refine ⟨rfl, ?_, ?_⟩ <;> rfl

/-- C9 as amended: for a processed market whose order-book flag is
explicitly false and which passes the token-array checks (both lists present
and nonempty, equal lengths), the not-CLOB-tradable counter is incremented
and its tokens are queued exactly as they would be with the flag absent; a
flag-false market failing those checks is counted as skipped instead and
does not touch the counter. -/
theorem not_clob_tradable_still_priced (pa : String) (cf : Option String)
    (ev : RawEvent) (m : RawMarket) (acc : ExtractAcc) (os ts : List String)
    (hos : m.outcomesParsed = some os) (hts : m.clobTokenIdsParsed = some ts)
    (hos0 : os ≠ []) (hts0 : ts ≠ []) (hlen : os.length = ts.length)
    (hflag : m.enableOrderBook = some false)
    (hcf : category_filter_rejects cf (extract_market_record m ev pa).category = false) :
    (process_market pa cf ev m acc).markets_not_clob_tradable =
        acc.markets_not_clob_tradable + 1 ∧
      (process_market pa cf ev m acc).tokens =
        acc.tokens ++ (extract_token_outcomes m).getD [] ∧
      extract_token_outcomes m =
        extract_token_outcomes { m with enableOrderBook := none } := by
  refine ⟨?_, ?_, rfl⟩ <;>
  · unfold process_market
    simp only [hos, hts, pyFalsyList, Option.getD_some, hcf, Bool.false_eq_true, if_false,
      decide_eq_true_eq, hflag, if_true, hlen, ne_eq, not_true_eq_false]
    split_ifs with h1 <;>
      first
        | (cases h1 with
            | inl h => exact absurd h hos0
            | inr h => exact absurd h hts0)
        | (rcases hx : extract_token_outcomes m with _ | ts0 <;> simp [hx])

/-- C9 amended witness: a concrete flag-false market with matching arrays,
processed from the initial accumulator. -/
theorem not_clob_tradable_still_priced_witness :
    ExtractAcc.markets_not_clob_tradable
        (process_market "now" none {}
          { id := some "m1", enableOrderBook := some false,
            outcomesParsed := some ["Yes", "No"],
            clobTokenIdsParsed := some ["t1", "t2"] } extract_init) =
      extract_init.markets_not_clob_tradable + 1 ∧
      ExtractAcc.tokens
          (process_market "now" none {}
            { id := some "m1", enableOrderBook := some false,
              outcomesParsed := some ["Yes", "No"],
              clobTokenIdsParsed := some ["t1", "t2"] } extract_init) =
        extract_init.tokens ++
          (extract_token_outcomes
              { id := some "m1", enableOrderBook := some false,
                outcomesParsed := some ["Yes", "No"],
                clobTokenIdsParsed := some ["t1", "t2"] }).getD [] ∧
      extract_token_outcomes
          { id := some "m1", enableOrderBook := some false,
            outcomesParsed := some ["Yes", "No"],
            clobTokenIdsParsed := some ["t1", "t2"] } =
        extract_token_outcomes
          { id := some "m1", enableOrderBook := none,
            outcomesParsed := some ["Yes", "No"],
            clobTokenIdsParsed := some ["t1", "t2"] } :=
  not_clob_tradable_still_priced "now" none {}
    { id := some "m1", enableOrderBook := some false,
      outcomesParsed := some ["Yes", "No"], clobTokenIdsParsed := some ["t1", "t2"] }
    extract_init ["Yes", "No"] ["t1", "t2"] rfl rfl (by decide) (by decide) (by decide)
    rfl (by decide)

/-- C1: fetch_all_prices returns exactly one PriceResult per input token, in
input order, with status among ok, missing_price and api_error; the status
is api_error exactly when the token id was flagged by a failed batch, else
missing_price exactly when neither side is present, else ok. -/
theorem fetch_all_prices_one_result_per_token (tokens : List TokenOutcome)
    (batch_size : ℕ) (att : ℕ → ℕ → AttemptResult) (order : List ℕ) (snap : String) :
    (fetch_all_prices tokens batch_size att order snap).1.length = tokens.length ∧
      ∀ i, i < tokens.length →
        (nth_price tokens batch_size att order snap i).token_id =
            (nth_token tokens i).token_id ∧
          ((nth_price tokens batch_size att order snap i).status = "ok" ∨
            (nth_price tokens batch_size att order snap i).status = "missing_price" ∨
            (nth_price tokens batch_size att order snap i).status = "api_error") ∧
          ((nth_price tokens batch_size att order snap i).status = "api_error" ↔
            (nth_token tokens i).token_id ∈
              (clob_collect tokens batch_size att order).apiErrors) ∧
          ((nth_price tokens batch_size att order snap i).status = "missing_price" ↔
            ((nth_token tokens i).token_id ∉
                (clob_collect tokens batch_size att order).apiErrors ∧
              (nth_price tokens batch_size att order snap i).bid = "" ∧
              (nth_price tokens batch_size att order snap i).ask = "")) := by
  refine ⟨by simp [fetch_all_prices_results], ?_⟩
  intro i hi
  rw [nth_price_eq tokens batch_size att order snap i hi]
  unfold finalize_token
  dsimp only
  split_ifs with h1 h2 <;> simp_all

/-- C1 witness: one token priced through a single successful batch. -/
theorem fetch_all_prices_one_result_per_token_witness :
    (nth_price [exToken] 2 exAttOk [0] "ts" 0).token_id =
        (nth_token [exToken] 0).token_id ∧
      ((nth_price [exToken] 2 exAttOk [0] "ts" 0).status = "ok" ∨
        (nth_price [exToken] 2 exAttOk [0] "ts" 0).status = "missing_price" ∨
        (nth_price [exToken] 2 exAttOk [0] "ts" 0).status = "api_error") ∧
      ((nth_price [exToken] 2 exAttOk [0] "ts" 0).status = "api_error" ↔
        (nth_token [exToken] 0).token_id ∈ (clob_collect [exToken] 2 exAttOk [0]).apiErrors) ∧
      ((nth_price [exToken] 2 exAttOk [0] "ts" 0).status = "missing_price" ↔
        ((nth_token [exToken] 0).token_id ∉ (clob_collect [exToken] 2 exAttOk [0]).apiErrors ∧
          (nth_price [exToken] 2 exAttOk [0] "ts" 0).bid = "" ∧
          (nth_price [exToken] 2 exAttOk [0] "ts" 0).ask = "")) :=
  (fetch_all_prices_one_result_per_token [exToken] 2 exAttOk [0] "ts").2 0 (by decide)

lemma renderPyDecimal_ne_empty (d : PyDecimal) : renderPyDecimal d ≠ "" := by
  cases d with
  | fin q =>
      simp only [renderPyDecimal]
      intro h
      have := congrArg String.data h
      simp at this
  | inf b => cases b <;> decide
  | nan => decide

lemma parse_decimal_empty : parse_decimal "" = none := by decide

lemma ne_empty_of_parse_decimal_isSome {s : String} (h : (parse_decimal s).isSome) :
    s ≠ "" := by
  intro he
  rw [he, parse_decimal_empty] at h
  simp at h

lemma mid_string_ne_empty_iff (bid ask : String) :
    mid_string bid ask ≠ "" ↔ (mid_of bid ask).isSome := by
  unfold mid_string
  rcases h : mid_of bid ask with _ | d <;> simp [renderPyDecimal_ne_empty]

lemma mid_of_isSome_iff (bid ask : String) :
    (mid_of bid ask).isSome ↔
      bid ≠ "" ∧ ask ≠ "" ∧ (parse_decimal bid).isSome ∧ (parse_decimal ask).isSome := by
  unfold mid_of
  by_cases h : bid ≠ "" ∧ ask ≠ ""
  · rw [if_pos h]
    rcases hb : parse_decimal bid with _ | b <;>
      rcases ha : parse_decimal ask with _ | a <;>
        simp [h.1, h.2, hb, ha]
  · rw [if_neg h]
    simp only [Option.isSome_none, Bool.false_eq_true, false_iff]
    intro hc
    exact h ⟨hc.1, hc.2.1⟩

/-- C3: in every PriceResult of fetch_all_prices, mid is nonempty exactly
when bid and ask are both nonempty and Decimal-parseable; mid renders the
value computed by mid_of, and on finite parses that value is the exact
rational mean of bid and ask (never interpolated, never defaulted). -/
theorem mid_present_iff_both_sides_parse (tokens : List TokenOutcome) (batch_size : ℕ)
    (att : ℕ → ℕ → AttemptResult) (order : List ℕ) (snap : String) (i : ℕ)
    (hi : i < tokens.length) :
    ((nth_price tokens batch_size att order snap i).mid ≠ "" ↔
        ((nth_price tokens batch_size att order snap i).bid ≠ "" ∧
          (nth_price tokens batch_size att order snap i).ask ≠ "" ∧
          (parse_decimal (nth_price tokens batch_size att order snap i).bid).isSome ∧
          (parse_decimal (nth_price tokens batch_size att order snap i).ask).isSome)) ∧
      (∀ d, mid_of (nth_price tokens batch_size att order snap i).bid
            (nth_price tokens batch_size att order snap i).ask = some d →
          (nth_price tokens batch_size att order snap i).mid = renderPyDecimal d) ∧
      (∀ b a : ℚ,
        parse_decimal (nth_price tokens batch_size att order snap i).bid = some (.fin b) →
          parse_decimal (nth_price tokens batch_size att order snap i).ask = some (.fin a) →
          mid_of (nth_price tokens batch_size att order snap i).bid
              (nth_price tokens batch_size att order snap i).ask =
            some (.fin ((b + a) / 2))) := by
  rw [nth_price_eq tokens batch_size att order snap i hi]
  unfold finalize_token
  dsimp only
  refine ⟨?_, ?_, ?_⟩
  · rw [mid_string_ne_empty_iff, mid_of_isSome_iff]
  · intro d hd
    unfold mid_string
    rw [hd]
  · intro b a hb ha
    have hbne : Option.getD
        (SideMap.sell ((clob_collect tokens batch_size att order).pm
          (nth_token tokens i).token_id)) "" ≠ "" :=
      ne_empty_of_parse_decimal_isSome (by rw [hb]; rfl)
    have hane : Option.getD
        (SideMap.buy ((clob_collect tokens batch_size att order).pm
          (nth_token tokens i).token_id)) "" ≠ "" :=
      ne_empty_of_parse_decimal_isSome (by rw [ha]; rfl)
    unfold mid_of
    rw [if_pos ⟨hbne, hane⟩, hb, ha]
    rfl

/-- C3 witness: the single token of the witness run, with bid 0.6 and ask
0.4 both parsed. -/
theorem mid_present_iff_both_sides_parse_witness :
    ((nth_price [exToken] 2 exAttOk [0] "ts" 0).mid ≠ "" ↔
        ((nth_price [exToken] 2 exAttOk [0] "ts" 0).bid ≠ "" ∧
          (nth_price [exToken] 2 exAttOk [0] "ts" 0).ask ≠ "" ∧
          (parse_decimal (nth_price [exToken] 2 exAttOk [0] "ts" 0).bid).isSome ∧
          (parse_decimal (nth_price [exToken] 2 exAttOk [0] "ts" 0).ask).isSome)) ∧
      (∀ d, mid_of (nth_price [exToken] 2 exAttOk [0] "ts" 0).bid
            (nth_price [exToken] 2 exAttOk [0] "ts" 0).ask = some d →
          (nth_price [exToken] 2 exAttOk [0] "ts" 0).mid = renderPyDecimal d) ∧
      (∀ b a : ℚ,
        parse_decimal (nth_price [exToken] 2 exAttOk [0] "ts" 0).bid = some (.fin b) →
          parse_decimal (nth_price [exToken] 2 exAttOk [0] "ts" 0).ask = some (.fin a) →
          mid_of (nth_price [exToken] 2 exAttOk [0] "ts" 0).bid
              (nth_price [exToken] 2 exAttOk [0] "ts" 0).ask =
            some (.fin ((b + a) / 2))) :=
  mid_present_iff_both_sides_parse [exToken] 2 exAttOk [0] "ts" 0 (by decide)

lemma request_items_cons (t : TokenOutcome) (ts : List TokenOutcome) :
    request_items (t :: ts) =
      (t.token_id, "BUY") :: (t.token_id, "SELL") :: request_items ts := by
  simp [request_items]

lemma request_items_getD (tokens : List TokenOutcome) :
    ∀ i, i < tokens.length →
      (request_items tokens).getD (2 * i) ("", "") =
          ((nth_token tokens i).token_id, "BUY") ∧
        (request_items tokens).getD (2 * i + 1) ("", "") =
          ((nth_token tokens i).token_id, "SELL") := by
  induction tokens with
  | nil => intro i hi; exact absurd hi (by simp)
  | cons t ts ih =>
      intro i hi
      cases i with
      | zero => simp [request_items_cons, nth_token]
      | succ j =>
          have hj : j < ts.length := by simpa using hi
          have h2 : 2 * (j + 1) = 2 * j + 1 + 1 := by ring
          rw [request_items_cons, h2]
          simp only [List.getD_cons_succ]
          have hnth : nth_token (t :: ts) (j + 1) = nth_token ts j := by
            simp [nth_token]
          rw [hnth]
          exact ih j hj

/-- C4: fetch_all_prices builds exactly two request items per input token, a
BUY item then a SELL item in token-major order, and the finalized ask field
is the BUY-side price while the bid field is the SELL-side price of the
merged responses (never swapped). -/
theorem request_items_pairs_and_side_mapping (tokens : List TokenOutcome)
    (batch_size : ℕ) (att : ℕ → ℕ → AttemptResult) (order : List ℕ) (snap : String) :
    (request_items tokens).length = 2 * tokens.length ∧
      (∀ i, i < tokens.length →
        (request_items tokens).getD (2 * i) ("", "") =
            ((nth_token tokens i).token_id, "BUY") ∧
          (request_items tokens).getD (2 * i + 1) ("", "") =
            ((nth_token tokens i).token_id, "SELL")) ∧
      (∀ i, i < tokens.length →
        (nth_price tokens batch_size att order snap i).ask =
            (SideMap.buy ((clob_collect tokens batch_size att order).pm
              (nth_token tokens i).token_id)).getD "" ∧
          (nth_price tokens batch_size att order snap i).bid =
            (SideMap.sell ((clob_collect tokens batch_size att order).pm
              (nth_token tokens i).token_id)).getD "") := by
  refine ⟨?_, request_items_getD tokens, ?_⟩
  · induction tokens with
    | nil => rfl
    | cons t ts ih => rw [request_items_cons]; simp [ih]; ring
  · intro i hi
    rw [nth_price_eq tokens batch_size att order snap i hi]
    exact ⟨rfl, rfl⟩

/-- C4 witness: the witness run has items (t1, BUY) then (t1, SELL) and maps
the BUY price 0.4 to ask and the SELL price 0.6 to bid. -/
theorem request_items_pairs_and_side_mapping_witness :
    ((request_items [exToken]).getD 0 ("", "") = ((nth_token [exToken] 0).token_id, "BUY") ∧
        (request_items [exToken]).getD 1 ("", "") =
          ((nth_token [exToken] 0).token_id, "SELL")) ∧
      ((nth_price [exToken] 2 exAttOk [0] "ts" 0).ask =
          (SideMap.buy ((clob_collect [exToken] 2 exAttOk [0]).pm
            (nth_token [exToken] 0).token_id)).getD "" ∧
        (nth_price [exToken] 2 exAttOk [0] "ts" 0).bid =
          (SideMap.sell ((clob_collect [exToken] 2 exAttOk [0]).pm
            (nth_token [exToken] 0).token_id)).getD "") ∧
      (nth_price [exToken] 2 exAttOk [0] "ts" 0).ask = "0.4" ∧
      (nth_price [exToken] 2 exAttOk [0] "ts" 0).bid = "0.6" := by
  refine ⟨?_, ?_, by decide, by decide⟩
  · have h := (request_items_pairs_and_side_mapping [exToken] 2 exAttOk [0] "ts").2.1 0
      (by decide)
    simpa using h
  · exact (request_items_pairs_and_side_mapping [exToken] 2 exAttOk [0] "ts").2.2 0
      (by decide)

lemma collect_batch_apiErrors_mono (b : List (List (String × String)))
    (att : ℕ → ℕ → AttemptResult) (st : CollectState) (i : ℕ) (tid : String)
    (h : tid ∈ st.apiErrors) : tid ∈ (collect_batch b att st i).apiErrors := by
  unfold collect_batch
  rcases hr : request_with_retry (att i) with _ | ⟨data, status⟩
  · simpa using Or.inl h
  · dsimp only
    split_ifs <;> simp [h]

lemma collect_batch_apiErrors_add (b : List (List (String × String)))
    (att : ℕ → ℕ → AttemptResult) (st : CollectState) (i : ℕ) (tid : String)
    (hfail : batch_failed att i = true)
    (htid : tid ∈ (b.getD i []).map Prod.fst) :
    tid ∈ (collect_batch b att st i).apiErrors := by
  unfold collect_batch
  unfold batch_failed at hfail
  rcases hr : request_with_retry (att i) with _ | ⟨data, status⟩ <;> rw [hr] at hfail
  · simpa using Or.inr htid
  · have hst : status ≠ 200 := by simpa using hfail
    dsimp only
    rw [if_neg (by exact fun hc => hst hc.1), if_pos hst]
    simpa using Or.inr htid

lemma clob_fold_apiErrors_mono (b : List (List (String × String)))
    (att : ℕ → ℕ → AttemptResult) (order : List ℕ) (st : CollectState) (tid : String)
    (h : tid ∈ st.apiErrors) :
    tid ∈ (order.foldl (collect_batch b att) st).apiErrors := by
  induction order generalizing st with
  | nil => exact h
  | cons hd tl ih =>
      rw [List.foldl_cons]
      exact ih _ (collect_batch_apiErrors_mono b att st hd tid h)

lemma clob_fold_apiErrors (b : List (List (String × String)))
    (att : ℕ → ℕ → AttemptResult) (order : List ℕ) (st : CollectState) (i : ℕ)
    (tid : String) (hi : i ∈ order) (hfail : batch_failed att i = true)
    (htid : tid ∈ (b.getD i []).map Prod.fst) :
    tid ∈ (order.foldl (collect_batch b att) st).apiErrors := by
  induction order generalizing st with
  | nil => cases hi
  | cons hd tl ih =>
      rw [List.foldl_cons]
      rcases List.mem_cons.mp hi with h | h
      · subst h
        exact clob_fold_apiErrors_mono b att tl _ tid
          (collect_batch_apiErrors_add b att st i tid hfail htid)
      · exact ih _ h

lemma applyEntry_ne (pm : String → SideMap) (e : String × List (String × String))
    (tid : String) (h : tid ≠ e.1) : applyEntry pm e tid = pm tid := by
  unfold applyEntry
  rw [if_neg h]

lemma applyData_pm_not_mem (data : RespData) (pm : String → SideMap) (tid : String)
    (h : tid ∉ data.map Prod.fst) : applyData pm data tid = pm tid := by
  induction data generalizing pm with
  | nil => rfl
  | cons e rest ih =>
      have h1 : tid ≠ e.1 := by
        intro hc
        exact h (by simp [hc])
      have h2 : tid ∉ rest.map Prod.fst := by
        intro hc
        exact h (by simp [hc])
      unfold applyData at ih ⊢
      rw [List.foldl_cons]
      rw [ih _ h2]
      exact applyEntry_ne pm e tid h1

lemma collect_batch_pm_of_not (b : List (List (String × String)))
    (att : ℕ → ℕ → AttemptResult) (st : CollectState) (i : ℕ) (tid : String)
    (hf : (match request_with_retry (att i) with
            | some (data, status) => decide (status = 200 ∧ data ≠ [] ∧ tid ∈ data.map Prod.fst)
            | none => false) = false) :
    (collect_batch b att st i).pm tid = st.pm tid := by
  unfold collect_batch
  rcases hr : request_with_retry (att i) with _ | ⟨data, status⟩ <;> rw [hr] at hf
  all_goals first
    | rfl
    | (have hf' : ¬(status = 200 ∧ data ≠ [] ∧ tid ∈ data.map Prod.fst) := by
          simpa using hf
       dsimp only
       split_ifs with h1 h2
       · exact applyData_pm_not_mem data st.pm tid (fun hc => hf' ⟨h1.1, h1.2, hc⟩)
       · rfl
       · rfl)

lemma clob_fold_pm_of_not (b : List (List (String × String)))
    (att : ℕ → ℕ → AttemptResult) (order : List ℕ) (st : CollectState) (tid : String)
    (h : token_in_successful_response att order tid = false) :
    (order.foldl (collect_batch b att) st).pm tid = st.pm tid := by
  induction order generalizing st with
  | nil => rfl
  | cons hd tl ih =>
      unfold token_in_successful_response at h ih
      rw [List.any_cons, Bool.or_eq_false_iff] at h
      rw [List.foldl_cons, ih _ h.2]
      exact collect_batch_pm_of_not b att st hd tid h.1

/-- C2 counterexample: with batch size one, the two items of token t1 land
in different batches; batch zero (the BUY item) exhausts its retries while
batch one (the SELL item) succeeds, so the single PriceResult has status
api_error and yet a nonempty bid taken from the successful batch, where the
claim requires bid, ask and mid all empty. -/
theorem failed_batch_nonempty_bid_cex :
    batch_failed exAttSplit 0 = true ∧
      ("t1", "BUY") ∈ (clob_batches [exToken] 1).getD 0 [] ∧
      ((fetch_all_prices [exToken] 1 exAttSplit [0, 1] "ts").1.map
          (fun r => (r.status, r.bid))) = [("api_error", "0.6")] := by
  refine ⟨by decide, by decide, by decide⟩

/-- C2 as amended: every token with a request item in a batch that exhausted
its retries or whose worker raised gets status api_error; and its bid, ask
and mid are all empty provided no successful batch response carried an entry
for that token (as is the case whenever every batch holding its items
failed and no other response mentions it). -/
theorem failed_batch_flags_tokens (tokens : List TokenOutcome) (batch_size : ℕ)
    (att : ℕ → ℕ → AttemptResult) (order : List ℕ) (snap : String) (i j : ℕ)
    (hi : i ∈ order) (hfail : batch_failed att i = true) (hj : j < tokens.length)
    (htid : (nth_token tokens j).token_id ∈
      ((clob_batches tokens batch_size).getD i []).map Prod.fst) :
    (nth_price tokens batch_size att order snap j).status = "api_error" ∧
      (token_in_successful_response att order (nth_token tokens j).token_id = false →
        (nth_price tokens batch_size att order snap j).bid = "" ∧
          (nth_price tokens batch_size att order snap j).ask = "" ∧
          (nth_price tokens batch_size att order snap j).mid = "") := by
  rw [nth_price_eq tokens batch_size att order snap j hj]
  have hmem : (nth_token tokens j).token_id ∈
      (clob_collect tokens batch_size att order).apiErrors :=
    clob_fold_apiErrors (clob_batches tokens batch_size) att order _ i
      (nth_token tokens j).token_id hi hfail htid
  constructor
  · unfold finalize_token
    dsimp only
    rw [if_pos hmem]
  · intro hns
    have hpm : (clob_collect tokens batch_size att order).pm (nth_token tokens j).token_id =
        ({} : SideMap) :=
      clob_fold_pm_of_not (clob_batches tokens batch_size) att order _ _ hns
    unfold finalize_token
    dsimp only
    rw [hpm]
    exact ⟨rfl, rfl, rfl⟩

/-- C2 amended witness: one token whose both items sit in the single batch,
which fails every attempt; the result has status api_error and empty bid,
ask and mid. -/
theorem failed_batch_flags_tokens_witness :
    (nth_price [exToken] 2 exAttFail [0] "ts" 0).status = "api_error" ∧
      (token_in_successful_response exAttFail [0] (nth_token [exToken] 0).token_id = false →
        (nth_price [exToken] 2 exAttFail [0] "ts" 0).bid = "" ∧
          (nth_price [exToken] 2 exAttFail [0] "ts" 0).ask = "" ∧
          (nth_price [exToken] 2 exAttFail [0] "ts" 0).mid = "") :=
  failed_batch_flags_tokens [exToken] 2 exAttFail [0] "ts" 0 0 (by decide) (by decide)
    (by decide) (by decide)

/-- C5 counterexample: when the first catalog page request raises (here a
non-transport exception on every attempt, as when retries are exhausted),
run_fetch propagates the exception and aborts with no output at all: no
manifest, and no file write of any kind, although the claim requires a
manifest for runs aborted by a fatal catalog-fetch failure. -/
theorem manifest_missing_on_fatal_catalog_failure :
    run_fetch "2024-01-01" "now" none none 500 false 500 false none none exGammaCrash
      exAttOk [] = .error () := rfl

/-- C5 as amended: every run whose catalog phase does not raise fatally
produces the run manifest, written into the run directory, including dry
runs and runs that match zero markets or price zero tokens; a run aborted by
a fatal catalog-fetch failure writes nothing, so the presence of the
manifest itself distinguishes a clean zero-match run from an aborted one. -/
theorem manifest_always_written_on_completed_runs (date now : String)
    (tag_id : Option String) (max_markets : Option ℕ) (batch_size : ℕ) (dry_run : Bool)
    (page_size : ℕ) (active_only : Bool) (category_filter : Option String)
    (sports_series_ids : Option (List ℤ)) (gamma_att : ℕ → ℕ → ℕ → GammaAttempt)
    (clob_att : ℕ → ℕ → AttemptResult) (clob_order : List ℕ) (out : RunOutput)
    (h : run_fetch date now tag_id max_markets batch_size dry_run page_size active_only
      category_filter sports_series_ids gamma_att clob_att clob_order = .ok out) :
    ("manifest", "run/run_manifest_" ++ date ++ ".json") ∈ out.writes := by
  unfold run_fetch at h
  dsimp only at h
  split at h
  · exact absurd h (by simp)
  · split_ifs at h <;>
      first
        | (rw [Except.ok.injEq] at h; subst h; simp)

/-- C5 amended witness: a concrete dry run over an empty catalog writes the
manifest. -/
theorem manifest_always_written_on_completed_runs_witness :
    run_fetch "2024-01-01" "now" none none 500 true 500 false none none exGammaEmpty
        exAttOk [] = .ok exRunOut ∧
      ("manifest", "run/run_manifest_" ++ "2024-01-01" ++ ".json") ∈ exRunOut.writes :=
  ⟨rfl,
    manifest_always_written_on_completed_runs "2024-01-01" "now" none none 500 true 500
      false none none exGammaEmpty exAttOk [] exRunOut rfl⟩

lemma page_params_no_tag_key (ps off : ℕ) (series : Option String)
    (act cl : Option Bool) :
    "tag_id" ∉ (page_params ps off none series act cl).map Prod.fst := by
  rcases series with _ | s <;> rcases act with _ | a <;> rcases cl with _ | c <;>
    simp [page_params, pyBoolStr] <;> split_ifs <;> simp

lemma page_params_no_series_key (ps off : ℕ) (tag : Option String)
    (act cl : Option Bool) :
    "series_id" ∉ (page_params ps off tag none act cl).map Prod.fst := by
  rcases tag with _ | t <;> rcases act with _ | a <;> rcases cl with _ | c <;>
    simp [page_params, pyBoolStr] <;> split_ifs <;> simp

lemma fetch_all_events_go_requests_shape (att : ℕ → ℕ → GammaAttempt)
    (tag series : Option String) (me : Option ℕ) (ps : ℕ) (act cl : Option Bool) :
    ∀ fuel page offset count evs rs,
      fetch_all_events_go att tag series me ps act cl fuel page offset count =
          .ok (evs, rs) →
        ∀ r ∈ rs, ∃ off, r = page_params ps off tag series act cl := by
  intro fuel
  induction fuel with
  | zero =>
      intro page offset count evs rs h r hr
      simp only [fetch_all_events_go] at h
      rw [Except.ok.injEq, Prod.mk.injEq] at h
      rw [← h.2] at hr
      cases hr
  | succ fuel ih =>
      intro page offset count evs rs h r hr
      simp only [fetch_all_events_go] at h
      by_cases hhit : max_events_hit me count = true
      · rw [if_pos hhit] at h
        rw [Except.ok.injEq, Prod.mk.injEq] at h
        rw [← h.2] at hr
        cases hr
      · rw [if_neg hhit] at h
        rcases hreq : gamma_request (att page) with e | body <;> rw [hreq] at h
        · exact absurd h (by simp)
        · rcases body with _ | events
          · rw [Except.ok.injEq, Prod.mk.injEq] at h
            rw [← h.2] at hr
            rcases List.mem_singleton.mp hr with hr0
            exact ⟨offset, hr0⟩
          · dsimp only at h
            split_ifs at h with h1 h2
            · rw [Except.ok.injEq, Prod.mk.injEq] at h
              rw [← h.2] at hr
              exact ⟨offset, List.mem_singleton.mp hr⟩
            · rw [Except.ok.injEq, Prod.mk.injEq] at h
              rw [← h.2] at hr
              exact ⟨offset, List.mem_singleton.mp hr⟩
            · rcases hrec : fetch_all_events_go att tag series me ps act cl fuel
                  (page + 1) (offset + events.length) (count + events.length) with
                e' | p <;> rw [hrec] at h
              · exact absurd h (by simp)
              · rw [Except.ok.injEq, Prod.mk.injEq] at h
                rw [← h.2] at hr
                rcases List.mem_cons.mp hr with hr0 | hr1
                · exact ⟨offset, hr0⟩
                · exact ih (page + 1) (offset + events.length) (count + events.length)
                    p.1 p.2 (by rw [hrec]) r hr1

lemma fetch_all_events_requests_shape (att : ℕ → ℕ → GammaAttempt)
    (tag series : Option String) (me : Option ℕ) (ps mp : ℕ) (act cl : Option Bool)
    (evs : List RawEvent) (rs : List (List (String × String)))
    (h : fetch_all_events att tag series me ps mp act cl = .ok (evs, rs)) :
    ∀ r ∈ rs, ∃ off, r = page_params ps off tag series act cl := by
  unfold fetch_all_events at h
  rcases hgo : fetch_all_events_go att tag series me ps act cl mp 0 0 0 with e | p <;>
    rw [hgo] at h
  · exact absurd h (by simp)
  · rw [Except.ok.injEq] at h
    have hrs : p.2 = rs := congrArg Prod.snd h
    rw [← hrs]
    exact fetch_all_events_go_requests_shape att tag series me ps act cl mp 0 0 0 p.1
      p.2 (by rw [hgo]) 

lemma fetch_sports_go_requests_shape (gatt : ℕ → ℕ → ℕ → GammaAttempt)
    (me : Option ℕ) (ps : ℕ) (act cl : Option Bool) :
    ∀ idx ids evs rs,
      fetch_sports_go gatt me ps act cl idx ids = .ok (evs, rs) →
        ∀ r ∈ rs, ∃ off s, r = page_params ps off none (some s) act cl := by
  intro idx ids
  induction ids generalizing idx with
  | nil =>
      intro evs rs h r hr
      simp only [fetch_sports_go] at h
      rw [Except.ok.injEq, Prod.mk.injEq] at h
      rw [← h.2] at hr
      cases hr
  | cons sid rest ih =>
      intro evs rs h r hr
      simp only [fetch_sports_go] at h
      rcases hf : fetch_all_events (gatt idx) none (some (toString sid)) me ps
          DEFAULT_MAX_PAGES act cl with e | p <;> rw [hf] at h
      · exact absurd h (by simp)
      · rcases hrest : fetch_sports_go gatt me ps act cl (idx + 1) rest with e' | p' <;>
          rw [hrest] at h
        · exact absurd h (by simp)
        · rw [Except.ok.injEq, Prod.mk.injEq] at h
          rw [← h.2] at hr
          rcases List.mem_append.mp hr with hr0 | hr1
          · rcases fetch_all_events_requests_shape (gatt idx) none (some (toString sid))
                me ps DEFAULT_MAX_PAGES act cl p.1 p.2 (by rw [hf]) r hr0 with ⟨off, ho⟩
            exact ⟨off, toString sid, ho⟩
          · exact ih (idx + 1) p'.1 p'.2 (by rw [hrest]) r hr1

lemma run_fetch_gamma_requests_shape (gatt : ℕ → ℕ → ℕ → GammaAttempt)
    (tag : Option String) (me : Option ℕ) (ps : ℕ) (act cl : Option Bool)
    (sids : Option (List ℤ)) (evs : List RawEvent) (rs : List (List (String × String)))
    (h : run_fetch_gamma gatt tag me ps act cl sids = .ok (evs, rs)) :
    ∀ r ∈ rs,
      (∃ off, r = page_params ps off tag none act cl) ∨
        (∃ off s, r = page_params ps off none (some s) act cl) := by
  unfold run_fetch_gamma at h
  rcases sids with _ | ids
  · intro r hr
    exact Or.inl (fetch_all_events_requests_shape (gatt 0) tag none me ps
      DEFAULT_MAX_PAGES act cl evs rs h r hr)
  · dsimp only at h
    by_cases hne : ids ≠ []
    · rw [if_pos hne] at h
      intro r hr
      exact Or.inr (fetch_sports_go_requests_shape gatt me ps act cl 0 ids evs rs h r hr)
    · rw [if_neg hne] at h
      intro r hr
      exact Or.inl (fetch_all_events_requests_shape (gatt 0) tag none me ps
        DEFAULT_MAX_PAGES act cl evs rs h r hr)

/-- C7: over every configuration and oracle, no catalog request issued by a
completed run carries both the tag_id and the series_id filter parameter:
the orchestrator passes a series id only with no tag id (sports mode) and a
tag id only with no series id (normal mode). -/
theorem catalog_selector_mutually_exclusive (date now : String) (tag_id : Option String)
    (max_markets : Option ℕ) (batch_size : ℕ) (dry_run : Bool) (page_size : ℕ)
    (active_only : Bool) (category_filter : Option String)
    (sports_series_ids : Option (List ℤ)) (gamma_att : ℕ → ℕ → ℕ → GammaAttempt)
    (clob_att : ℕ → ℕ → AttemptResult) (clob_order : List ℕ) (out : RunOutput)
    (h : run_fetch date now tag_id max_markets batch_size dry_run page_size active_only
      category_filter sports_series_ids gamma_att clob_att clob_order = .ok out) :
    ∀ r ∈ out.gamma_requests,
      ¬("tag_id" ∈ r.map Prod.fst ∧ "series_id" ∈ r.map Prod.fst) := by
  unfold run_fetch at h
  dsimp only at h
  split at h
  · exact absurd h (by simp)
  · rename_i raw_events greqs heq
    have hreq : out.gamma_requests = greqs := by
      split_ifs at h <;> (rw [Except.ok.injEq] at h; subst h; rfl)
    rw [hreq]
    intro r hr hc
    rcases run_fetch_gamma_requests_shape gamma_att tag_id _ page_size _ _
        sports_series_ids raw_events greqs heq r hr with ⟨off, ho⟩ | ⟨off, s, ho⟩
    · rw [ho] at hc
      exact page_params_no_series_key page_size off tag_id _ _ hc.2
    · rw [ho] at hc
      exact page_params_no_tag_key page_size off (some s) _ _ hc.1

/-- C7 witness: a concrete tagged dry run issues one request, which does not
carry both filter keys. -/
theorem catalog_selector_mutually_exclusive_witness :
    run_fetch "2024-01-01" "now" (some "7") none 500 true 500 false none none
        exGammaEmpty exAttOk [] = .ok exRunTagOut ∧
      exRunTagOut.gamma_requests.getD 0 [] ∈ exRunTagOut.gamma_requests ∧
      ¬("tag_id" ∈ (exRunTagOut.gamma_requests.getD 0 []).map Prod.fst ∧
        "series_id" ∈ (exRunTagOut.gamma_requests.getD 0 []).map Prod.fst) :=
  ⟨rfl, by decide,
    catalog_selector_mutually_exclusive "2024-01-01" "now" (some "7") none 500 true 500
      false none none exGammaEmpty exAttOk [] exRunTagOut rfl
      (exRunTagOut.gamma_requests.getD 0 []) (by decide)⟩

lemma fetch_all_events_go_hit_of_ne_nil (att : ℕ → ℕ → GammaAttempt)
    (tag series : Option String) (me : Option ℕ) (ps : ℕ) (act cl : Option Bool)
    (fuel page offset count : ℕ) (evs : List RawEvent)
    (rs : List (List (String × String)))
    (h : fetch_all_events_go att tag series me ps act cl fuel page offset count =
      .ok (evs, rs)) (hne : rs ≠ []) :
    max_events_hit me count = false ∧ 0 < fuel := by
  cases fuel with
  | zero =>
      simp only [fetch_all_events_go] at h
      rw [Except.ok.injEq, Prod.mk.injEq] at h
      exact absurd h.2.symm hne
  | succ fuel =>
      refine ⟨?_, Nat.succ_pos fuel⟩
      by_cases hhit : max_events_hit me count = true
      · simp only [fetch_all_events_go, if_pos hhit] at h
        rw [Except.ok.injEq, Prod.mk.injEq] at h
        exact absurd h.2.symm hne
      · simpa using hhit

lemma fetch_all_events_go_ne_nil (att : ℕ → ℕ → GammaAttempt)
    (tag series : Option String) (me : Option ℕ) (ps : ℕ) (act cl : Option Bool)
    (fuel page offset count : ℕ) (evs : List RawEvent)
    (rs : List (List (String × String)))
    (h : fetch_all_events_go att tag series me ps act cl (fuel + 1) page offset count =
      .ok (evs, rs)) (hhit : max_events_hit me count = false) : rs ≠ [] := by
  simp only [fetch_all_events_go, hhit, Bool.false_eq_true, if_false] at h
  rcases hreq : gamma_request (att page) with e | body <;> rw [hreq] at h
  · exact absurd h (by simp)
  · rcases body with _ | events
    · rw [Except.ok.injEq, Prod.mk.injEq] at h
      rw [← h.2]
      simp
    · dsimp only at h
      split_ifs at h with h1 h2
      · rw [Except.ok.injEq, Prod.mk.injEq] at h
        rw [← h.2]
        simp
      · rw [Except.ok.injEq, Prod.mk.injEq] at h
        rw [← h.2]
        simp
      · rcases hrec : fetch_all_events_go att tag series me ps act cl fuel (page + 1)
            (offset + events.length) (count + events.length) with e' | p <;>
          rw [hrec] at h
        · exact absurd h (by simp)
        · rw [Except.ok.injEq, Prod.mk.injEq] at h
          rw [← h.2]
          simp

lemma fetch_all_events_go_requests_le (att : ℕ → ℕ → GammaAttempt)
    (tag series : Option String) (me : Option ℕ) (ps : ℕ) (act cl : Option Bool) :
    ∀ fuel page offset count evs rs,
      fetch_all_events_go att tag series me ps act cl fuel page offset count =
          .ok (evs, rs) →
        rs.length ≤ fuel := by
  intro fuel
  induction fuel with
  | zero =>
      intro page offset count evs rs h
      simp only [fetch_all_events_go] at h
      rw [Except.ok.injEq, Prod.mk.injEq] at h
      rw [← h.2]
      simp
  | succ fuel ih =>
      intro page offset count evs rs h
      simp only [fetch_all_events_go] at h
      by_cases hhit : max_events_hit me count = true
      · rw [if_pos hhit, Except.ok.injEq, Prod.mk.injEq] at h
        rw [← h.2]
        simp
      · rw [if_neg hhit] at h
        rcases hreq : gamma_request (att page) with e | body <;> rw [hreq] at h
        · exact absurd h (by simp)
        · rcases body with _ | events
          · rw [Except.ok.injEq, Prod.mk.injEq] at h
            rw [← h.2]
            simp
          · dsimp only at h
            split_ifs at h with h1 h2
            · rw [Except.ok.injEq, Prod.mk.injEq] at h
              rw [← h.2]
              simp
            · rw [Except.ok.injEq, Prod.mk.injEq] at h
              rw [← h.2]
              simp
            · rcases hrec : fetch_all_events_go att tag series me ps act cl fuel
                  (page + 1) (offset + events.length) (count + events.length) with
                e' | p <;> rw [hrec] at h
              · exact absurd h (by simp)
              · rw [Except.ok.injEq, Prod.mk.injEq] at h
                rw [← h.2]
                have := ih (page + 1) (offset + events.length) (count + events.length)
                  p.1 p.2 (by rw [hrec])
                simpa using this

lemma page_len_of_ok (att : ℕ → ℕ → GammaAttempt) (p : ℕ) (events : List RawEvent)
    (h : gamma_request (att p) = .ok (some events)) : page_len att p = events.length := by
  unfold page_len
  rw [h]

lemma fetch_all_events_go_request_offsets (att : ℕ → ℕ → GammaAttempt)
    (tag series : Option String) (me : Option ℕ) (ps : ℕ) (act cl : Option Bool) :
    ∀ fuel page offset count evs rs,
      fetch_all_events_go att tag series me ps act cl fuel page offset count =
          .ok (evs, rs) →
        ∀ k, k < rs.length →
          rs.getD k [] =
            page_params ps (offset + page_len_sum att page k) tag series act cl := by
  intro fuel
  induction fuel with
  | zero =>
      intro page offset count evs rs h k hk
      simp only [fetch_all_events_go] at h
      rw [Except.ok.injEq, Prod.mk.injEq] at h
      rw [← h.2] at hk
      simp at hk
  | succ fuel ih =>
      intro page offset count evs rs h k hk
      simp only [fetch_all_events_go] at h
      by_cases hhit : max_events_hit me count = true
      · rw [if_pos hhit, Except.ok.injEq, Prod.mk.injEq] at h
        rw [← h.2] at hk
        simp at hk
      · rw [if_neg hhit] at h
        rcases hreq : gamma_request (att page) with e | body <;> rw [hreq] at h
        · exact absurd h (by simp)
        · rcases body with _ | events
          · rw [Except.ok.injEq, Prod.mk.injEq] at h
            rw [← h.2] at hk ⊢
            have hk0 : k = 0 := by simpa [Nat.lt_one_iff] using hk
            subst hk0
            simp [page_len_sum]
          · dsimp only at h
            split_ifs at h with h1 h2
            · rw [Except.ok.injEq, Prod.mk.injEq] at h
              rw [← h.2] at hk ⊢
              have hk0 : k = 0 := by simpa [Nat.lt_one_iff] using hk
              subst hk0
              simp [page_len_sum]
            · rw [Except.ok.injEq, Prod.mk.injEq] at h
              rw [← h.2] at hk ⊢
              have hk0 : k = 0 := by simpa [Nat.lt_one_iff] using hk
              subst hk0
              simp [page_len_sum]
            · rcases hrec : fetch_all_events_go att tag series me ps act cl fuel
                  (page + 1) (offset + events.length) (count + events.length) with
                e' | p <;> rw [hrec] at h
              · exact absurd h (by simp)
              · rw [Except.ok.injEq, Prod.mk.injEq] at h
                rw [← h.2] at hk ⊢
                cases k with
                | zero => simp [page_len_sum]
                | succ k' =>
                    have hk' : k' < p.2.length := by simpa using hk
                    have hih := ih (page + 1) (offset + events.length)
                      (count + events.length) p.1 p.2 (by rw [hrec]) k' hk'
                    have hlen := page_len_of_ok att page events hreq
                    have harg : offset + page_len_sum att page (k' + 1) =
                        offset + events.length + page_len_sum att (page + 1) k' := by
                      simp [page_len_sum, hlen]
                      omega
                    rw [List.getD_cons_succ, hih, harg]

lemma fetch_all_events_go_continue (att : ℕ → ℕ → GammaAttempt)
    (tag series : Option String) (me : Option ℕ) (ps : ℕ) (act cl : Option Bool) :
    ∀ fuel page offset count evs rs,
      fetch_all_events_go att tag series me ps act cl fuel page offset count =
          .ok (evs, rs) →
        ∀ k, k + 1 < rs.length →
          ∃ e, gamma_request (att (page + k)) = .ok (some e) ∧ e ≠ [] ∧ ps ≤ e.length ∧
            max_events_hit me (count + page_len_sum att page (k + 1)) = false := by
  intro fuel
  induction fuel with
  | zero =>
      intro page offset count evs rs h k hk
      simp only [fetch_all_events_go] at h
      rw [Except.ok.injEq, Prod.mk.injEq] at h
      rw [← h.2] at hk
      simp at hk
  | succ fuel ih =>
      intro page offset count evs rs h k hk
      simp only [fetch_all_events_go] at h
      by_cases hhit : max_events_hit me count = true
      · rw [if_pos hhit, Except.ok.injEq, Prod.mk.injEq] at h
        rw [← h.2] at hk
        simp at hk
      · rw [if_neg hhit] at h
        rcases hreq : gamma_request (att page) with e | body <;> rw [hreq] at h
        · exact absurd h (by simp)
        · rcases body with _ | events
          · rw [Except.ok.injEq, Prod.mk.injEq] at h
            rw [← h.2] at hk
            simp at hk
          · dsimp only at h
            split_ifs at h with h1 h2
            · rw [Except.ok.injEq, Prod.mk.injEq] at h
              rw [← h.2] at hk
              simp at hk
            · rw [Except.ok.injEq, Prod.mk.injEq] at h
              rw [← h.2] at hk
              simp at hk
            · rcases hrec : fetch_all_events_go att tag series me ps act cl fuel
                  (page + 1) (offset + events.length) (count + events.length) with
                e' | ⟨evs', rs'⟩ <;> rw [hrec] at h
              · exact absurd h (by simp)
              · rw [Except.ok.injEq, Prod.mk.injEq] at h
                have hlen := page_len_of_ok att page events hreq
                cases k with
                | zero =>
                    have hne' : rs' ≠ [] := by
                      rw [← h.2] at hk
                      simp at hk
                      exact List.ne_nil_of_length_pos (by omega)
                    have hhit2 := (fetch_all_events_go_hit_of_ne_nil att tag series me
                      ps act cl fuel (page + 1) (offset + events.length)
                      (count + events.length) evs' rs' hrec hne').1
                    refine ⟨events, by simpa using hreq, h1, by omega, ?_⟩
                    have harg : count + page_len_sum att page (0 + 1) =
                        count + events.length := by
                      simp [page_len_sum, hlen]
                    rw [harg]
                    exact hhit2
                | succ k' =>
                    have hk' : k' + 1 < rs'.length := by
                      rw [← h.2] at hk
                      simpa using hk
                    rcases ih (page + 1) (offset + events.length)
                        (count + events.length) evs' rs' hrec k' hk' with
                      ⟨e, he1, he2, he3, he4⟩
                    refine ⟨e, ?_, he2, he3, ?_⟩
                    · have hidx : page + (k' + 1) = page + 1 + k' := by omega
                      rw [hidx]
                      exact he1
                    · have harg : count + page_len_sum att page (k' + 1 + 1) =
                          count + events.length + page_len_sum att (page + 1) (k' + 1) := by
                        simp [page_len_sum, hlen]
                        omega
                      rw [harg]
                      exact he4

lemma fetch_all_events_go_stop (att : ℕ → ℕ → GammaAttempt)
    (tag series : Option String) (me : Option ℕ) (ps : ℕ) (act cl : Option Bool) :
    ∀ fuel page offset count evs rs,
      fetch_all_events_go att tag series me ps act cl fuel page offset count =
          .ok (evs, rs) →
        rs ≠ [] → rs.length < fuel →
        max_events_hit me (count + page_len_sum att page rs.length) = false →
        (gamma_request (att (page + (rs.length - 1))) = .ok none ∨
          ∃ e, gamma_request (att (page + (rs.length - 1))) = .ok (some e) ∧
            (e = [] ∨ e.length < ps)) := by
  intro fuel
  induction fuel with
  | zero =>
      intro page offset count evs rs h hne hlt hhit3
      exact absurd hlt (by omega)
  | succ fuel ih =>
      intro page offset count evs rs h hne hlt hhit3
      simp only [fetch_all_events_go] at h
      by_cases hhit : max_events_hit me count = true
      · rw [if_pos hhit, Except.ok.injEq, Prod.mk.injEq] at h
        exact absurd h.2.symm hne
      · rw [if_neg hhit] at h
        rcases hreq : gamma_request (att page) with e | body <;> rw [hreq] at h
        · exact absurd h (by simp)
        · rcases body with _ | events
          · rw [Except.ok.injEq, Prod.mk.injEq] at h
            rw [← h.2]
            left
            simpa using hreq
          · dsimp only at h
            split_ifs at h with h1 h2
            · rw [Except.ok.injEq, Prod.mk.injEq] at h
              rw [← h.2]
              right
              exact ⟨events, by simpa using hreq, Or.inl h1⟩
            · rw [Except.ok.injEq, Prod.mk.injEq] at h
              rw [← h.2]
              right
              exact ⟨events, by simpa using hreq, Or.inr h2⟩
            · rcases hrec : fetch_all_events_go att tag series me ps act cl fuel
                  (page + 1) (offset + events.length) (count + events.length) with
                e' | ⟨evs', rs'⟩ <;> rw [hrec] at h
              · exact absurd h (by simp)
              · rw [Except.ok.injEq, Prod.mk.injEq] at h
                have hlen := page_len_of_ok att page events hreq
                by_cases hpe : rs' = []
                · exfalso
                  subst hpe
                  have hfuel : 0 < fuel := by
                    rw [← h.2] at hlt
                    simp at hlt
                    omega
                  rcases fuel with _ | f
                  · exact absurd hfuel (by omega)
                  · have hhit2 : max_events_hit me (count + events.length) = false := by
                      rw [← h.2] at hhit3
                      have harg : count +
                          page_len_sum att page ([page_params ps offset tag series
                            act cl].length) = count + events.length := by
                        simp [page_len_sum, hlen]
                      rw [harg] at hhit3
                      exact hhit3
                    exact fetch_all_events_go_ne_nil att tag series me ps act cl f
                      (page + 1) (offset + events.length) (count + events.length)
                      evs' [] hrec hhit2 rfl
                · have hpos : 0 < rs'.length := List.length_pos.mpr hpe
                  have hlt' : rs'.length < fuel := by
                    rw [← h.2] at hlt
                    simp at hlt
                    omega
                  have hhit3' : max_events_hit me ((count + events.length) +
                      page_len_sum att (page + 1) rs'.length) = false := by
                    rw [← h.2] at hhit3
                    have harg : count + page_len_sum att page
                        ((page_params ps offset tag series act cl :: rs').length) =
                        count + events.length + page_len_sum att (page + 1)
                          rs'.length := by
                      simp [page_len_sum, hlen]
                      omega
                    rw [harg] at hhit3
                    exact hhit3
                  have hres := ih (page + 1) (offset + events.length)
                    (count + events.length) evs' rs' hrec hpe hlt' hhit3'
                  rw [← h.2]
                  have hidx : page + ((page_params ps offset tag series act cl ::
                      rs').length - 1) = (page + 1) + (rs'.length - 1) := by
                    simp
                    omega
                  rw [hidx]
                  exact hres

/-- C6: catalog pagination is strictly sequential.  For a completed
enumeration: at most max_pages requests are issued; the offset parameter of
the k-th request equals the number of events returned by the previous pages
(the offset advances by the size of each page); a further request is issued
only after a nonempty page of at least page_size events and only while the
max_events bound is not reached; an enumeration that stops with fuel left
and the bound unreached stopped exactly because the last page was not a
list, was empty, or was shorter than page_size; and for every positive
max_events bound the returned list has at most that many events. -/
theorem catalog_pagination_sequential (att : ℕ → ℕ → GammaAttempt)
    (tag series : Option String) (me : Option ℕ) (ps mp : ℕ) (act cl : Option Bool)
    (final : List RawEvent) (rs : List (List (String × String)))
    (h : fetch_all_events att tag series me ps mp act cl = .ok (final, rs)) :
    rs.length ≤ mp ∧
      (∀ k, k < rs.length →
        rs.getD k [] = page_params ps (page_len_sum att 0 k) tag series act cl) ∧
      (∀ k, k + 1 < rs.length →
        ∃ e, gamma_request (att k) = .ok (some e) ∧ e ≠ [] ∧ ps ≤ e.length ∧
          max_events_hit me (page_len_sum att 0 (k + 1)) = false) ∧
      (rs ≠ [] → rs.length < mp →
        max_events_hit me (page_len_sum att 0 rs.length) = false →
        (gamma_request (att (rs.length - 1)) = .ok none ∨
          ∃ e, gamma_request (att (rs.length - 1)) = .ok (some e) ∧
            (e = [] ∨ e.length < ps))) ∧
      (∀ m, me = some m → m ≠ 0 → final.length ≤ m) := by
  unfold fetch_all_events at h
  rcases hgo : fetch_all_events_go att tag series me ps act cl mp 0 0 0 with
    e | ⟨evs, rs'⟩ <;> rw [hgo] at h
  · exact absurd h (by simp)
  · dsimp only at h
    rw [Except.ok.injEq, Prod.mk.injEq] at h
    obtain ⟨hfin, hrs⟩ := h
    subst hrs
    refine ⟨?_, ?_, ?_, ?_, ?_⟩
    · exact fetch_all_events_go_requests_le att tag series me ps act cl mp 0 0 0 evs
        rs' hgo
    · intro k hk
      have := fetch_all_events_go_request_offsets att tag series me ps act cl mp 0 0 0
        evs rs' hgo k hk
      simpa using this
    · intro k hk
      have := fetch_all_events_go_continue att tag series me ps act cl mp 0 0 0 evs rs'
        hgo k hk
      simpa using this
    · intro h1 h2 h3
      have h3' : max_events_hit me (0 + page_len_sum att 0 rs'.length) = false := by
        simpa using h3
      have := fetch_all_events_go_stop att tag series me ps act cl mp 0 0 0 evs rs' hgo
        h1 h2 h3'
      simpa using this
    · intro m hm hm0
      rw [← hfin]
      subst hm
      dsimp only
      rw [if_pos hm0]
      simp

/-- C6 witness: three full pages of two events with page size two and
max_pages three; every request count, offset and continuation condition is
checked at the second and third request. -/
theorem catalog_pagination_sequential_witness :
    fetch_all_events exGammaPages none none none 2 3 none none =
        .ok (exPagesOut.1, exPagesOut.2) ∧
      exPagesOut.2.length ≤ 3 ∧
      exPagesOut.2.getD 2 [] =
        page_params 2 (page_len_sum exGammaPages 0 2) none none none none ∧
      (∃ e, gamma_request (exGammaPages 1) = .ok (some e) ∧ e ≠ [] ∧ 2 ≤ e.length ∧
        max_events_hit none (page_len_sum exGammaPages 0 (1 + 1)) = false) :=
  ⟨rfl,
    (catalog_pagination_sequential exGammaPages none none none 2 3 none none
        exPagesOut.1 exPagesOut.2 rfl).1,
    (catalog_pagination_sequential exGammaPages none none none 2 3 none none
        exPagesOut.1 exPagesOut.2 rfl).2.1 2 (by decide),
    (catalog_pagination_sequential exGammaPages none none none 2 3 none none
        exPagesOut.1 exPagesOut.2 rfl).2.2.1 1 (by decide)⟩
